import Mathlib

/-!
Verification of the customs-exchange-rate repository's data pipeline.

The generator scripts (three revisions: `part_000` with prior-snapshot reuse,
`part_001` and `part_002` with mock fallback) and the frontend reader
(`src/services/customsApi.ts`) are embedded shallowly:

* JavaScript numbers are modelled by `JsNum` (NaN / ±Infinity / a finite
  value carried as a rational).  Exact rationals stand in for IEEE doubles;
  every fact proved below (sign, NaN-ness, equality of short decimal
  literals) is unaffected by double rounding.
* `Number(string)` and `parseInt(string, 10)` are modelled by `jsNumber`
  and `jsParseInt10` over the string's characters.
* Instants are milliseconds since the Unix epoch (`ℤ`); calendar dates are
  day counts converted with the standard civil-from-days algorithm.  The
  scripts' `getTimezoneOffset` round-trip realises a fixed UTC+9 clock,
  which is modelled directly.
* `Math.sin` is an unknown function `jsSin : ℤ → ℚ`; theorems that need it
  assume only `|jsSin x| ≤ 1`.
* The network and filesystem are oracles carried in `GenEnv`.
-/

namespace CustomsFx

/-- Classification of a JavaScript number: NaN, the two infinities, or a
finite value (modelled as an exact rational). -/
inductive JsNum where
  | nan : JsNum
  | posInf : JsNum
  | negInf : JsNum
  | finite : ℚ → JsNum
deriving DecidableEq

/-- `Number.isNaN`. -/
def JsNum.isNaN : JsNum → Bool
  | .nan => true
  | _ => false

/-- The record invariant claimed by the spec: a finite, non-negative value. -/
def JsNum.isFiniteNonneg : JsNum → Bool
  | .finite q => decide (0 ≤ q)
  | _ => false

/-- A finite, strictly positive value. -/
def JsNum.isFinitePos : JsNum → Bool
  | .finite q => decide (0 < q)
  | _ => false

/-- Double overflow on conversion of an exact value: magnitudes at or above
`2^1024` become the corresponding infinity (the model of the IEEE boundary). -/
def jsNumFinite (q : ℚ) : JsNum :=
  if (2 : ℚ) ^ 1024 ≤ q then .posInf
  else if q ≤ -((2 : ℚ) ^ 1024) then .negInf
  else .finite q

/-- The whitespace characters `Number` and `parseInt` strip. -/
def jsWhite (c : Char) : Bool :=
  c = ' ' ∨ c = '\t' ∨ c = '\n' ∨ c = '\r' ∨ c = Char.ofNat 11 ∨ c = Char.ofNat 12

/-- Value of a run of decimal digits. -/
def digitsVal (l : List Char) : ℕ :=
  l.foldl (fun a c => a * 10 + (c.toNat - 48)) 0

/-- Split a maximal run of decimal digits off the front. -/
def takeDigits (l : List Char) : List Char × List Char :=
  (l.takeWhile Char.isDigit, l.dropWhile Char.isDigit)

/-- The exponent suffix of a decimal literal: empty, or `e`/`E`, an optional
sign and at least one digit consuming the rest of the string. -/
def parseExpPart : List Char → Option ℤ
  | [] => some 0
  | c :: r =>
    if c = 'e' ∨ c = 'E' then
      match r with
      | '+' :: r2 =>
        let (ds, rest) := takeDigits r2
        if ds ≠ [] ∧ rest = [] then some (digitsVal ds) else none
      | '-' :: r2 =>
        let (ds, rest) := takeDigits r2
        if ds ≠ [] ∧ rest = [] then some (-(digitsVal ds : ℤ)) else none
      | _ =>
        let (ds, rest) := takeDigits r
        if ds ≠ [] ∧ rest = [] then some (digitsVal ds) else none
    else none

/-- The digit data of an unsigned decimal literal: the mantissa (integer
and fraction digits read as one number), the fraction length, and the
exponent.  Its value is `mantissa / 10 ^ fracLen * 10 ^ expo`. -/
structure DecLit where
  mantissa : ℕ
  fracLen : ℕ
  expo : ℤ
deriving DecidableEq

/-- The exact value of a decimal literal. -/
def DecLit.toRat (d : DecLit) : ℚ :=
  (d.mantissa : ℚ) / 10 ^ d.fracLen * 10 ^ d.expo

/-- An unsigned decimal literal (`StrDecimalLiteral`): integer part,
optional fraction, optional exponent, at least one digit in all. -/
def parseDec (l : List Char) : Option DecLit :=
  let (ip, r1) := takeDigits l
  match r1 with
  | '.' :: r2 =>
    let (fp, r3) := takeDigits r2
    if ip = [] ∧ fp = [] then none
    else (parseExpPart r3).map fun e => ⟨digitsVal (ip ++ fp), fp.length, e⟩
  | _ =>
    if ip = [] then none
    else (parseExpPart r1).map fun e => ⟨digitsVal ip, 0, e⟩

/-- A hexadecimal digit. -/
def isHexDigitCh (c : Char) : Bool :=
  c.isDigit ∨ ('A' ≤ c ∧ c ≤ 'F') ∨ ('a' ≤ c ∧ c ≤ 'f')

/-- Value of a hexadecimal digit. -/
def hexVal (c : Char) : ℕ :=
  if c.isDigit then c.toNat - 48
  else if c ≤ 'F' then c.toNat - 55
  else c.toNat - 87

/-- Hex / octal / binary integer literals (`0x…`, `0o…`, `0b…`), which
`Number` accepts only without a sign. -/
def parseRadixLit : List Char → Option ℕ
  | '0' :: c :: r =>
    if c = 'x' ∨ c = 'X' then
      if r ≠ [] ∧ r.all isHexDigitCh then
        some (r.foldl (fun a d => a * 16 + hexVal d) 0)
      else none
    else if c = 'o' ∨ c = 'O' then
      if r ≠ [] ∧ r.all (fun d => '0' ≤ d ∧ d ≤ '7') then
        some (r.foldl (fun a d => a * 8 + (d.toNat - 48)) 0)
      else none
    else if c = 'b' ∨ c = 'B' then
      if r ≠ [] ∧ r.all (fun d => d = '0' ∨ d = '1') then
        some (r.foldl (fun a d => a * 2 + (d.toNat - 48)) 0)
      else none
    else none
  | _ => none

/-- The outcome of `Number(string)`'s character-level analysis, before any
numeric value is formed; this part of the conversion is fully computable. -/
inductive SymNum where
  | nan : SymNum
  | zero : SymNum
  | inf : Bool → SymNum
  | radix : ℕ → SymNum
  | dec : Bool → DecLit → SymNum
deriving DecidableEq

/-- `String.trim` as JavaScript applies it. -/
def trimJs (s : String) : List Char :=
  ((s.toList.dropWhile jsWhite).reverse.dropWhile jsWhite).reverse

/-- Character-level analysis of `Number(string)`: trim, empty means zero,
then an unsigned radix literal or an optionally signed `Infinity` or
decimal literal; anything else is NaN.  The `Bool` is the negative sign. -/
def jsNumberSym (s : String) : SymNum :=
  let l := trimJs s
  if l.isEmpty then .zero
  else
    match parseRadixLit l with
    | some v => .radix v
    | none =>
      let neg : Bool := match l with
        | '-' :: _ => true
        | _ => false
      let body : List Char := match l with
        | '-' :: r => r
        | '+' :: r => r
        | _ => l
      if body = "Infinity".toList then .inf neg
      else
        match parseDec body with
        | some d => .dec neg d
        | none => .nan

/-- Numeric interpretation of the analysis; out-of-range magnitudes
overflow to the infinities. -/
def jsNumOf : SymNum → JsNum
  | .nan => .nan
  | .zero => .finite 0
  | .inf neg => if neg then .negInf else .posInf
  | .radix v => jsNumFinite (v : ℚ)
  | .dec neg d => jsNumFinite ((if neg then -1 else 1) * d.toRat)

/-- `Number(string)`. -/
def jsNumber (s : String) : JsNum :=
  jsNumOf (jsNumberSym s)

/-- `parseInt(string, 10)`: strip leading whitespace, an optional sign, then
the maximal run of decimal digits; NaN (here `none`) when there are none. -/
def jsParseInt10 (s : String) : Option ℤ :=
  match s.toList.dropWhile jsWhite with
  | [] => none
  | c :: r =>
    let body : List Char := if c = '-' ∨ c = '+' then r else c :: r
    let ds := body.takeWhile Char.isDigit
    if ds = [] then none
    else some ((if c = '-' then -1 else 1) * digitsVal ds)

/-! ## Calendar arithmetic

The scripts manipulate `Date` objects at day granularity: convert the
current instant to the UTC+9 wall clock, take the day-of-week, walk in
7-day steps, and print year / zero-padded month / zero-padded day.  Days
are counted from the Unix epoch (1970-01-01, a Thursday). -/

/-- Decimal digits of a natural number, most significant first (the fuel
argument keeps the recursion structural so the kernel can evaluate it). -/
def natDigitsAux : ℕ → ℕ → List Char
  | 0, _ => []
  | fuel + 1, n =>
    if n < 10 then [Char.ofNat (48 + n)]
    else natDigitsAux fuel (n / 10) ++ [Char.ofNat (48 + n % 10)]

/-- `String(n)` for a natural number. -/
def natToStr (n : ℕ) : String :=
  (natDigitsAux (n + 1) n).asString

/-- `String(z)` for an integer (how `getFullYear` renders in a template). -/
def intToStr (z : ℤ) : String :=
  if z < 0 then "-" ++ natToStr z.natAbs else natToStr z.toNat

/-- `String(z).padStart(2, '0')`. -/
def pad2 (z : ℤ) : String :=
  let s := intToStr z
  if s.length < 2 then "0" ++ s else s

/-- Proleptic-Gregorian date of a day count (civil-from-days).  All the
interior divisions act on non-negative values. -/
def civilFromDays (day : ℤ) : ℤ × ℤ × ℤ :=
  let z := day + 719468
  let era := z.fdiv 146097
  let doe := z - era * 146097
  let yoe := (doe - doe / 1460 + doe / 36524 - doe / 146096) / 365
  let y := yoe + era * 400
  let doy := doe - (365 * yoe + yoe / 4 - yoe / 100)
  let mp := (5 * doy + 2) / 153
  let d := doy - (153 * mp + 2) / 5 + 1
  let m := mp + if mp < 10 then 3 else -9
  (y + (if m ≤ 2 then 1 else 0), m, d)

/-- `YYYYMMDD` rendering of a day count: year, zero-padded month,
zero-padded day, concatenated. -/
def formatCompact (day : ℤ) : String :=
  let ymd := civilFromDays day
  intToStr ymd.1 ++ pad2 ymd.2.1 ++ pad2 ymd.2.2

/-- The UTC+9 calendar day holding an instant (`ms` since the epoch):
`new Date(utc + 9h)` read at day granularity. -/
def kstDay (nowMs : ℤ) : ℤ :=
  (nowMs + 9 * 60 * 60 * 1000).fdiv 86400000

/-- `getDay()`: 0 = Sunday … 6 = Saturday (the epoch was a Thursday). -/
def dayOfWeek (day : ℤ) : ℤ :=
  (day + 4) % 7

/-- Anchor day counts of the snapshot-reuse generator (`part_000`): the
Sunday of the *current* week — today when today is Sunday, otherwise the
upcoming one — then 7-day steps backward. -/
def anchorDays000 (count : ℕ) (nowMs : ℤ) : List ℤ :=
  let k := kstDay nowMs
  let thisSunday := k + (7 - dayOfWeek k) % 7
  (List.range count).map fun i : ℕ => thisSunday - 7 * (i : ℤ)

/-- Anchor day counts of the mock-fallback generators (`part_001`,
`part_002`): the most recent Sunday at or before today, then 7-day steps
backward. -/
def anchorDays001 (count : ℕ) (nowMs : ℤ) : List ℤ :=
  let k := kstDay nowMs
  let lastSunday := k - dayOfWeek k
  (List.range count).map fun i : ℕ => lastSunday - 7 * (i : ℤ)

/-- `getRecentSundays` of `part_000` (snapshot-reuse revision). -/
def getRecentSundays000 (count : ℕ) (nowMs : ℤ) : List String :=
  (anchorDays000 count nowMs).map formatCompact

/-- `getRecentSundays` of `part_001` / `part_002` (mock-fallback
revisions). -/
def getRecentSundays001 (count : ℕ) (nowMs : ℤ) : List String :=
  (anchorDays001 count nowMs).map formatCompact

/-- `formatDateForDisplay`: `YYYYMMDD` → `YYYY-MM-DD` by `substring`. -/
def formatDateForDisplay (s : String) : String :=
  ((s.toList.take 4).asString) ++ "-" ++
    (((s.toList.drop 4).take 2).asString) ++ "-" ++
    (((s.toList.drop 6).take 2).asString)

/-! ## Data model -/

/-- `RateType.EXPORT`. -/
def RateTypeEXPORT : String := "1"

/-- `RateType.IMPORT`. -/
def RateTypeIMPORT : String := "2"

/-- A normalized rate record (`RateData` in `types.ts`). -/
structure RateData where
  id : String
  countryCode : String
  currencyName : String
  currencyCode : String
  rate : JsNum
  date : String
  type : String
deriving DecidableEq

/-- One week of the snapshot: the start date and the two directional record
lists (`RateWeek` in `types.ts`; the JSON keys are `export` / `import`). -/
structure RateWeek where
  startDate : String
  exportRates : List RateData
  importRates : List RateData
deriving DecidableEq

/-- The generator's snapshot document. -/
structure RateDataset where
  generatedAt : String
  source : String
  weeks : List RateWeek
deriving DecidableEq

/-- One `<item>` of the upstream XML body, as text fields. -/
structure UpItem where
  aplyBgnDt : String
  cntySgn : String
  mtryUtNm : String
  currSgn : String
  fxrt : String
  imexTp : String
deriving DecidableEq

/-- Outcome of one HTTP round-trip, after XML parsing: a thrown failure
(non-ok status, transport error, parse error) or the item list (`[]` when
the body carries none; a lone item arrives as a singleton per the
`Array.isArray` wrapping). -/
inductive FetchResp where
  | fail : FetchResp
  | items : List UpItem → FetchResp
deriving DecidableEq

/-- The ambient state of one generator run: the clock, the configured week
count and credential, the network as an oracle from (anchor date, direction
code) to a response, the parsed previous snapshot's weeks (`none` when the
file is missing, unparseable, or has no `weeks` array), and the wall-clock
string taken at assembly time. -/
structure GenEnv where
  nowMs : ℤ
  weekCount : ℕ
  serviceKey : String
  net : String → String → FetchResp
  prior : Option (List RateWeek)
  genAt : String

/-! ## Generator operations -/

/-- Normalization of one upstream item inside `fetchWeek`'s `map`. -/
def normalizeItem (formattedDate ty : String) (it : UpItem) : RateData :=
  { id := it.aplyBgnDt ++ "-" ++ it.currSgn ++ "-" ++ it.imexTp
    countryCode := it.cntySgn
    currencyName := it.mtryUtNm
    currencyCode := it.currSgn
    rate := jsNumber it.fxrt
    date := formattedDate
    type := if ty = RateTypeEXPORT then "export" else "import" }

/-- `fetchWeek`'s `cleaned` list: normalize every item, then drop the rows
whose rate is NaN (`!Number.isNaN(row.rate)`). -/
def cleanItems (formattedDate ty : String) (l : List UpItem) : List RateData :=
  (l.map (normalizeItem formattedDate ty)).filter fun r => !r.rate.isNaN

/-- `fetchWeek` of `part_000`: `null` without a credential, on a thrown
fetch, or when no record survives cleaning; the cleaned list otherwise. -/
def fetchWeek000 (serviceKey : String) (net : String → String → FetchResp)
    (date ty : String) : Option (List RateData) :=
  let formattedDate := formatDateForDisplay date
  if serviceKey = "" then none
  else
    match net date ty with
    | .fail => none
    | .items l =>
      let cleaned := cleanItems formattedDate ty l
      if cleaned.isEmpty then none else some cleaned

/-- `generateMockData` (`part_001` / `part_002`): eight fixed currencies,
each base rate perturbed by `Math.sin` of a seed derived from the date.
`jsSin` stands for `Math.sin`; when `parseInt` yields NaN the whole
arithmetic chain is NaN. -/
def generateMockData (jsSin : ℤ → ℚ) (date ty : String) : List RateData :=
  let formattedDate := formatDateForDisplay date
  let seed := (jsParseInt10 date).map fun v => Int.tmod v 100
  let noise : ℚ → JsNum := fun base =>
    match seed with
    | some s => jsNumFinite (base + jsSin s * base * (5 / 100))
    | none => .nan
  let typeStr := if ty = RateTypeEXPORT then "export" else "import"
  [ { id := date ++ "-USD", countryCode := "US", currencyName := "US Dollar",
      currencyCode := "USD", rate := noise 1350, date := formattedDate, type := typeStr }
  , { id := date ++ "-JPY", countryCode := "JP", currencyName := "Japanese Yen",
      currencyCode := "JPY", rate := noise 900, date := formattedDate, type := typeStr }
  , { id := date ++ "-EUR", countryCode := "EU", currencyName := "Euro",
      currencyCode := "EUR", rate := noise 1450, date := formattedDate, type := typeStr }
  , { id := date ++ "-CNY", countryCode := "CN", currencyName := "Chinese Yuan",
      currencyCode := "CNY", rate := noise 190, date := formattedDate, type := typeStr }
  , { id := date ++ "-GBP", countryCode := "GB", currencyName := "British Pound",
      currencyCode := "GBP", rate := noise 1700, date := formattedDate, type := typeStr }
  , { id := date ++ "-HKD", countryCode := "HK", currencyName := "Hong Kong Dollar",
      currencyCode := "HKD", rate := noise 172, date := formattedDate, type := typeStr }
  , { id := date ++ "-CAD", countryCode := "CA", currencyName := "Canadian Dollar",
      currencyCode := "CAD", rate := noise 980, date := formattedDate, type := typeStr }
  , { id := date ++ "-AUD", countryCode := "AU", currencyName := "Australian Dollar",
      currencyCode := "AUD", rate := noise 880, date := formattedDate, type := typeStr } ]

/-- `fetchWeek` of `part_001` / `part_002`: every fallback goes to the mock
generator instead of `null`. -/
def fetchWeek001 (jsSin : ℤ → ℚ) (serviceKey : String)
    (net : String → String → FetchResp) (date ty : String) : List RateData :=
  if serviceKey = "" then generateMockData jsSin date ty
  else
    match net date ty with
    | .fail => generateMockData jsSin date ty
    | .items l =>
      let cleaned := cleanItems (formatDateForDisplay date) ty l
      if cleaned.isEmpty then generateMockData jsSin date ty else cleaned

/-- The weeks reusable from the previous snapshot (`loadExistingData` plus
the `Array.isArray(existingData.weeks)` guard). -/
def loadExistingWeeks (prior : Option (List RateWeek)) : List RateWeek :=
  prior.getD []

/-- `existingWeeksMap.get`: of the weeks sharing a `startDate`, the last
inserted binding wins. -/
def mapGet (weeks : List RateWeek) (key : String) : Option RateWeek :=
  weeks.reverse.find? fun w => w.startDate = key

/-- `buildDataset` of `part_000`: per anchor, keep the fresh week when both
directions succeeded, otherwise fall back to the prior snapshot's week for
that exact start date, otherwise skip the week. -/
def buildDataset000 (env : GenEnv) : RateDataset :=
  let sundays := getRecentSundays000 env.weekCount env.nowMs
  let existingWeeks := loadExistingWeeks env.prior
  let weeks := sundays.filterMap fun date =>
    let formattedDate := formatDateForDisplay date
    match fetchWeek000 env.serviceKey env.net date RateTypeEXPORT,
          fetchWeek000 env.serviceKey env.net date RateTypeIMPORT with
    | some exportRates, some importRates =>
      some { startDate := formattedDate, exportRates := exportRates,
             importRates := importRates }
    | _, _ => mapGet existingWeeks formattedDate
  { generatedAt := env.genAt
    source := "Korea Customs Service (static snapshot)"
    weeks := weeks }

/-- `buildDataset` of `part_001` / `part_002`: every anchor yields a week
(the fetch itself never returns empty-handed). -/
def buildDataset001 (jsSin : ℤ → ℚ) (env : GenEnv) : RateDataset :=
  let sundays := getRecentSundays001 env.weekCount env.nowMs
  let weeks := sundays.map fun date =>
    { startDate := formatDateForDisplay date
      exportRates := fetchWeek001 jsSin env.serviceKey env.net date RateTypeEXPORT
      importRates := fetchWeek001 jsSin env.serviceKey env.net date RateTypeIMPORT }
  { generatedAt := env.genAt
    source := "Korea Customs Service (static snapshot)"
    weeks := weeks }

/-! ## Frontend Reader (`src/services/customsApi.ts`)

The loaded JSON is untrusted, so every field arrives as an optional value:
`none` models an absent key (and, for the array-typed fields, a non-array
value, which the `Array.isArray` guards treat the same way). -/

/-- The `rate` field of a persisted entry: a JSON number, a string, or
absent (`null` behaves like absent in the `entry.rate || 0` coercion). -/
inductive RawRate where
  | num : JsNum → RawRate
  | str : String → RawRate
  | absent : RawRate
deriving DecidableEq

/-- One persisted record as loaded, before normalization. -/
structure RawEntry where
  id : Option String
  countryCode : Option String
  cntySgn : Option String
  currencyName : Option String
  mtryUtNm : Option String
  currencyCode : Option String
  currSgn : Option String
  rate : RawRate
  date : Option String
deriving DecidableEq

/-- One persisted week as loaded. -/
structure RawWeek where
  startDate : Option String
  date : Option String
  importRaw : Option (List RawEntry)
  exportRaw : Option (List RawEntry)
deriving DecidableEq

/-- The persisted snapshot as loaded. -/
structure RawDataset where
  generatedAt : Option String
  source : Option String
  weeks : Option (List RawWeek)
deriving DecidableEq

/-- The dataset the frontend builds (`RateDataset` in `types.ts`, whose
`source` is optional). -/
structure FrontDataset where
  generatedAt : String
  source : Option String
  weeks : List RateWeek
deriving DecidableEq

/-- JavaScript `a || b` for a possibly-absent string: the empty string is
falsy. -/
def jsOrS : Option String → String → String
  | some s, d => if s = "" then d else s
  | none, d => d

/-- `normalizeEntry`: coalesce each field through its falsy-or chain; the
rate keeps a JSON number as is and otherwise runs `Number(entry.rate || 0)`. -/
def normalizeEntry (entry : RawEntry) (ty : String) (fallbackDate : String) :
    RateData :=
  { id := jsOrS entry.id
      (fallbackDate ++ "-" ++ jsOrS entry.currencyCode (jsOrS entry.currSgn "UNKNOWN")
        ++ "-" ++ ty)
    countryCode := jsOrS entry.countryCode (jsOrS entry.cntySgn "")
    currencyName := jsOrS entry.currencyName (jsOrS entry.mtryUtNm "")
    currencyCode := jsOrS entry.currencyCode (jsOrS entry.currSgn "")
    rate :=
      match entry.rate with
      | .num n => n
      | .str s => if s = "" then .finite 0 else jsNumber s
      | .absent => .finite 0
    date := jsOrS entry.date fallbackDate
    type := ty }

/-- `fetchRateDataset`, after the JSON body has been obtained: map every
persisted week through `normalizeEntry`, keeping the persisted week order. -/
def fetchRateDataset (raw : RawDataset) : FrontDataset :=
  let weeksRaw := raw.weeks.getD []
  let weeks := weeksRaw.map fun w =>
    let startDate := jsOrS w.startDate (jsOrS w.date "")
    { startDate := startDate
      importRates := (w.importRaw.getD []).map fun e => normalizeEntry e "import" startDate
      exportRates := (w.exportRaw.getD []).map fun e => normalizeEntry e "export" startDate }
  { generatedAt := jsOrS raw.generatedAt ""
    source := raw.source
    weeks := weeks }

/-- Lexicographic comparison of character lists by code point. -/
def chLe : List Char → List Char → Bool
  | [], _ => true
  | _ :: _, [] => false
  | a :: as, b :: bs => if a < b then true else if b < a then false else chLe as bs

/-- Lexicographic comparison of strings (the order sorting ISO `YYYY-MM-DD`
dates realises); used to state week ordering. -/
def strLe (a b : String) : Bool :=
  chLe a.toList b.toList

/-! ## Concrete inputs used by witnesses and counterexamples

`1704510000000` ms is 2024-01-06 12:00 on the UTC+9 clock, a Saturday;
its day count is 19728, the enclosing week runs from Sunday 2023-12-31
(day 19722) to Sunday 2024-01-07 (day 19729). -/

/-- A prior-snapshot week for 2024-01-07, as a fallback source. -/
def wPrior : RateWeek :=
  { startDate := "2024-01-07", exportRates := [], importRates := [] }

/-- A run on the Saturday instant with no credential, a failing network and
a prior snapshot holding `wPrior`. -/
def envC1 : GenEnv :=
  { nowMs := 1704510000000, weekCount := 1, serviceKey := ""
    net := fun _ _ => .fail, prior := some [wPrior], genAt := "t" }

/-- The upstream export item of the end-to-end scenario. -/
def c9Item : UpItem :=
  { aplyBgnDt := "20240107", cntySgn := "US", mtryUtNm := "US Dollar"
    currSgn := "USD", fxrt := "1300.5", imexTp := "1" }

/-- Its expected normalization (`1300.5 = 2601/2`). -/
def c9Record : RateData :=
  { id := "20240107-USD-1", countryCode := "US", currencyName := "US Dollar"
    currencyCode := "USD", rate := .finite (2601 / 2), date := "2024-01-07"
    type := "export" }

/-! ## Claims -/

/-- C1: in the snapshot-reuse generator, an anchor week whose fresh fetch
failed for either direction while the prior snapshot holds a week with that
exact start date ends up in the assembled dataset as exactly that prior
week — the very value read from the snapshot, so every identifier, rate
and other field is unchanged and nothing is re-normalized. -/
theorem c1_prior_week_reused (env : GenEnv) (date : String) (w : RateWeek)
    (hdate : date ∈ getRecentSundays000 env.weekCount env.nowMs)
    (hfail : fetchWeek000 env.serviceKey env.net date RateTypeEXPORT = none ∨
      fetchWeek000 env.serviceKey env.net date RateTypeIMPORT = none)
    (hprior : mapGet (loadExistingWeeks env.prior) (formatDateForDisplay date) = some w) :
    w ∈ (buildDataset000 env).weeks := by
  simp only [buildDataset000, List.mem_filterMap]
  refine ⟨date, hdate, ?_⟩
  rcases hE : fetchWeek000 env.serviceKey env.net date RateTypeEXPORT with _ | eR
  · exact hprior
  · rcases hI : fetchWeek000 env.serviceKey env.net date RateTypeIMPORT with _ | iR
    · exact hprior
    · rcases hfail with h | h
      · exact absurd (hE ▸ h) (by simp)
      · exact absurd (hI ▸ h) (by simp)

/-- C1 witness: on the concrete Saturday run with no credential, the prior
snapshot's 2024-01-07 week is carried into the output unchanged. -/
theorem c1_prior_week_reused_witness : wPrior ∈ (buildDataset000 envC1).weeks :=
  c1_prior_week_reused envC1 "20240107" wPrior (by decide) (Or.inl (by decide))
    (by decide)

/-- C5: the mock synthesis is a deterministic function of the anchor date
and the direction alone — it reads neither the clock, nor randomness, nor
the network, so two invocations (here: under two arbitrary network worlds)
return identical record lists, the lists `fetchWeek` falls back to. -/
theorem c5_mock_synthesis_deterministic (jsSin : ℤ → ℚ) (date ty : String)
    (net net' : String → String → FetchResp) :
    fetchWeek001 jsSin "" net date ty = generateMockData jsSin date ty ∧
    fetchWeek001 jsSin "" net' date ty = fetchWeek001 jsSin "" net date ty :=
  ⟨rfl, rfl⟩

/-- C7: with the credential absent, `fetchWeek` returns its fallback
immediately and its result does not depend on the network oracle at all —
no request is consulted: `part_000` yields `null`, `part_001` the mock
records. -/
theorem c7_no_request_without_credential (jsSin : ℤ → ℚ)
    (net net' : String → String → FetchResp) (date ty : String) :
    fetchWeek000 "" net date ty = none ∧
    fetchWeek000 "" net date ty = fetchWeek000 "" net' date ty ∧
    fetchWeek001 jsSin "" net date ty = generateMockData jsSin date ty ∧
    fetchWeek001 jsSin "" net date ty = fetchWeek001 jsSin "" net' date ty :=
  ⟨rfl, rfl, rfl, rfl⟩

/-- C9: the end-to-end scenario item normalizes to countryCode `US`,
currencyCode `USD`, currencyName `US Dollar`, rate `1300.5` (the rational
`2601/2`), date `2024-01-07` and type `export`, both at the `map` step and
through a whole successful `fetchWeek`. -/
theorem c9_normalization_scenario :
    normalizeItem (formatDateForDisplay "20240107") RateTypeEXPORT c9Item = c9Record ∧
    fetchWeek000 "key" (fun _ _ => .items [c9Item]) "20240107" RateTypeEXPORT =
      some [c9Record] := by
  have hsym : jsNumberSym "1300.5" = .dec false ⟨13005, 1, 0⟩ := by decide
  have hrate : jsNumber "1300.5" = .finite (2601 / 2) := by
    rw [jsNumber, hsym, jsNumOf, DecLit.toRat, jsNumFinite]
    norm_num
  have hnorm : normalizeItem (formatDateForDisplay "20240107") RateTypeEXPORT c9Item
      = c9Record := by
    simp [normalizeItem, c9Item, c9Record, RateData.mk.injEq, hrate,
      (by decide : formatDateForDisplay "20240107" = "2024-01-07")]
  have hclean : cleanItems (formatDateForDisplay "20240107") RateTypeEXPORT [c9Item]
      = [c9Record] := by
    simp [cleanItems, hnorm, JsNum.isNaN, c9Record]
  refine ⟨hnorm, ?_⟩
  rw [fetchWeek000, if_neg (by decide : ¬ ("key" = ""))]
  simp [hclean, c9Record]

/-- An upstream item whose rate text parses to positive infinity — not
finite, yet not NaN. -/
def itemInf : UpItem :=
  { aplyBgnDt := "20240107", cntySgn := "XX", mtryUtNm := "Testland Unit"
    currSgn := "XTS", fxrt := "Infinity", imexTp := "1" }

/-- An upstream item whose rate text parses to a negative number. -/
def itemNeg : UpItem :=
  { aplyBgnDt := "20240107", cntySgn := "YY", mtryUtNm := "Minusland Unit"
    currSgn := "YTS", fxrt := "-5", imexTp := "1" }

/-- C3 counterexample: the cleaning step keeps both an `Infinity` rate and
a negative rate — the filter only rejects NaN, so "excludes every item
whose rate does not parse to a finite number" and "every remaining rate is
non-negative" both fail on this input. -/
theorem c3_counterexample :
    (cleanItems "2024-01-07" RateTypeEXPORT [itemInf, itemNeg]).length = 2 ∧
    ((cleanItems "2024-01-07" RateTypeEXPORT [itemInf, itemNeg]).map fun r => r.rate)
      = [JsNum.posInf, JsNum.finite (-5)] ∧
    ((cleanItems "2024-01-07" RateTypeEXPORT [itemInf, itemNeg]).all
      fun r => r.rate.isFiniteNonneg) = false := by
  have hInf : jsNumber "Infinity" = JsNum.posInf := by decide
  have hsym : jsNumberSym "-5" = .dec true ⟨5, 0, 0⟩ := by decide
  have hNeg : jsNumber "-5" = JsNum.finite (-5) := by
    rw [jsNumber, hsym, jsNumOf, DecLit.toRat, jsNumFinite]
    norm_num
  have hclean : cleanItems "2024-01-07" RateTypeEXPORT [itemInf, itemNeg]
      = [normalizeItem "2024-01-07" RateTypeEXPORT itemInf,
         normalizeItem "2024-01-07" RateTypeEXPORT itemNeg] := by
    simp [cleanItems, JsNum.isNaN, normalizeItem, itemInf, itemNeg, hInf, hNeg]
  refine ⟨?_, ?_, ?_⟩
  · rw [hclean]; rfl
  · rw [hclean]
    simp [normalizeItem, itemInf, itemNeg, hInf, hNeg]
  · rw [hclean]
    simp [normalizeItem, itemInf, itemNeg, hInf, JsNum.isFiniteNonneg]

/-- C3 amended: the week's cleaned record list excludes exactly the items
whose rate text parses to NaN; every record that remains carries a numeric
(non-NaN) rate, which may still be infinite or negative. -/
theorem c3_cleaning_drops_exactly_nan (fd ty : String) (l : List UpItem) :
    (∀ r ∈ cleanItems fd ty l, r.rate.isNaN = false) ∧
    (∀ it ∈ l, (normalizeItem fd ty it).rate.isNaN = false →
      normalizeItem fd ty it ∈ cleanItems fd ty l) := by
  constructor
  · intro r hr
    have h := (List.mem_filter.mp hr).2
    simpa using h
  · intro it hit h
    exact List.mem_filter.mpr ⟨List.mem_map_of_mem _ hit, by simp [h]⟩

/-- A persisted week with the given start date and no records. -/
def rawWeekOf (d : String) : RawWeek :=
  { startDate := some d, date := none, importRaw := some [], exportRaw := some [] }

/-- A persisted snapshot whose weeks are in ascending (violated) order. -/
def rawUnsorted : RawDataset :=
  { generatedAt := some "2024-01-20T00:00:00.000Z", source := some "s"
    weeks := some [rawWeekOf "2024-01-07", rawWeekOf "2024-01-14"] }

/-- C6 counterexample: loading a snapshot whose persisted week order is
ascending returns the weeks still ascending — `fetchRateDataset` applies
no defensive sort, so the claimed descending order fails. -/
theorem c6_counterexample :
    ((fetchRateDataset rawUnsorted).weeks.map fun w => w.startDate)
      = ["2024-01-07", "2024-01-14"] ∧
    strLe "2024-01-14" "2024-01-07" = false := by decide

/-- C6 amended: the loader returns the weeks in exactly the persisted
order, each start date being the falsy-coalesced `startDate || date || ''`
of the corresponding raw week; no reordering happens on load. -/
theorem c6_loader_preserves_order (raw : RawDataset) :
    ((fetchRateDataset raw).weeks.map fun w => w.startDate)
      = (raw.weeks.getD []).map fun w => jsOrS w.startDate (jsOrS w.date "") := by
  simp [fetchRateDataset, List.map_map]

/-- C8 counterexample: mock records' identifiers are date–currency only —
the direction tag is absent, so the export and import syntheses for the
same week produce pairwise identical identifiers on distinct-direction
records. -/
theorem c8_counterexample :
    ((generateMockData (fun _ => 0) "20240107" RateTypeEXPORT).map fun r => r.id)
      = ((generateMockData (fun _ => 0) "20240107" RateTypeIMPORT).map fun r => r.id) ∧
    ((generateMockData (fun _ => 0) "20240107" RateTypeEXPORT).map fun r => r.id)
      = ["20240107-USD", "20240107-JPY", "20240107-EUR", "20240107-CNY",
         "20240107-GBP", "20240107-HKD", "20240107-CAD", "20240107-AUD"] ∧
    ((generateMockData (fun _ => 0) "20240107" RateTypeEXPORT).map fun r => r.type)
      = ["export", "export", "export", "export", "export", "export", "export", "export"] ∧
    ((generateMockData (fun _ => 0) "20240107" RateTypeIMPORT).map fun r => r.type)
      = ["import", "import", "import", "import", "import", "import", "import", "import"] := by
  decide

/-- C8 amended: records normalized from upstream items carry the composite
identifier date–currency–direction, distinct across directions; mock
records carry only date–currency, so the two directions of a week share
their identifiers. -/
theorem c8_identifier_composition (fd ty fd' ty' : String) (it it' : UpItem)
    (jsSin : ℤ → ℚ) (date : String) :
    (normalizeItem fd ty it).id = it.aplyBgnDt ++ "-" ++ it.currSgn ++ "-" ++ it.imexTp ∧
    (it.aplyBgnDt = it'.aplyBgnDt → it.currSgn = it'.currSgn → it.imexTp ≠ it'.imexTp →
      (normalizeItem fd ty it).id ≠ (normalizeItem fd' ty' it').id) ∧
    ((generateMockData jsSin date RateTypeEXPORT).map fun r => r.id)
      = (generateMockData jsSin date RateTypeIMPORT).map fun r => r.id := by
  refine ⟨rfl, ?_, rfl⟩
  intro h1 h2 h3 hEq
  apply h3
  simp only [normalizeItem, h1, h2] at hEq
  have hd := congrArg String.data hEq
  simp only [String.data_append, List.append_assoc] at hd
  exact String.ext (List.append_cancel_left (List.append_cancel_left
    (List.append_cancel_left (List.append_cancel_left hd))))

/-- C10: the frontend's normalization never discards an entry — the week
lists keep their lengths — and the rate coercion maps an absent or empty
rate to `0` and a non-numeric rate string to NaN. -/
theorem c10_loader_never_discards (raw : RawDataset) (e : RawEntry) (ty fd s : String) :
    ((fetchRateDataset raw).weeks.map fun w => (w.importRates.length, w.exportRates.length))
      = ((raw.weeks.getD []).map fun w =>
          ((w.importRaw.getD []).length, (w.exportRaw.getD []).length)) ∧
    (normalizeEntry { e with rate := .absent } ty fd).rate = .finite 0 ∧
    (normalizeEntry { e with rate := .str "" } ty fd).rate = .finite 0 ∧
    (jsNumber s = .nan →
      s ≠ "" ∧ (normalizeEntry { e with rate := .str s } ty fd).rate = .nan) := by
  refine ⟨?_, rfl, ?_, ?_⟩
  · simp [fetchRateDataset, List.map_map]
  · simp [normalizeEntry]
  · intro h
    have hs : s ≠ "" := by
      intro hzero
      rw [hzero, (by decide : jsNumber "" = JsNum.finite 0)] at h
      exact absurd h (by decide)
    exact ⟨hs, by simp [normalizeEntry, hs, h]⟩

/-- Descending 7-day chains over a mapped range. -/
lemma chain_sub_seven (n : ℕ) (S : ℤ) :
    ((List.range n).map fun i : ℕ => S - 7 * (i : ℤ)).Chain' fun a b => b = a - 7 := by
  rw [List.chain'_iff_get]
  intro i h
  simp only [List.get_eq_getElem, List.getElem_map, List.getElem_range]
  push_cast
  ring

/-- Walking backward in 7-day steps preserves the day of week. -/
lemma dayOfWeek_sub_weeks (d : ℤ) (i : ℕ) : dayOfWeek (d - 7 * i) = dayOfWeek d := by
  simp only [dayOfWeek]
  omega

/-- The `part_001` first anchor is a Sunday. -/
lemma dayOfWeek_lastSunday (k : ℤ) : dayOfWeek (k - dayOfWeek k) = 0 := by
  simp only [dayOfWeek]
  have h : k - (k + 4) % 7 + 4 = k + 4 - (k + 4) % 7 := by ring
  rw [h, Int.sub_emod, Int.emod_emod_of_dvd _ dvd_rfl, sub_self, Int.zero_emod]

/-- The `part_000` first anchor is a Sunday. -/
lemma dayOfWeek_thisSunday (k : ℤ) : dayOfWeek (k + (7 - dayOfWeek k) % 7) = 0 := by
  simp only [dayOfWeek]
  obtain ⟨e, he, he0, he7⟩ : ∃ e, (k + 4) % 7 = e ∧ 0 ≤ e ∧ e < 7 :=
    ⟨_, rfl, Int.emod_nonneg _ (by norm_num), Int.emod_lt_of_pos _ (by norm_num)⟩
  rw [he]
  obtain ⟨f, hf, hf0, hf7⟩ : ∃ f, (7 - e) % 7 = f ∧ 0 ≤ f ∧ f < 7 :=
    ⟨_, rfl, Int.emod_nonneg _ (by norm_num), Int.emod_lt_of_pos _ (by norm_num)⟩
  rw [hf]
  omega

/-- Head of a mapped range. -/
lemma head_map_range (n : ℕ) (hn : 0 < n) (f : ℕ → ℤ) :
    ((List.range n).map f).head? = some (f 0) := by
  obtain ⟨m, rfl⟩ : ∃ m, n = m + 1 := ⟨n - 1, by omega⟩
  rw [List.range_succ_eq_map]
  simp

/-- C2 counterexample: at the Saturday instant 2024-01-06 12:00 UTC+9
(day 19728), the snapshot-reuse revision's first anchor is 2024-01-07 —
day 19729, strictly *after* the current day — although the most recent
Sunday at or before that instant is 2023-12-31 (day 19722).  The claim's
"most recent Sunday at or before the current instant" therefore fails for
the `part_000` variant it also names as a source. -/
theorem c2_counterexample :
    kstDay 1704510000000 = 19728 ∧
    dayOfWeek 19728 = 6 ∧
    anchorDays000 1 1704510000000 = [19729] ∧
    getRecentSundays000 1 1704510000000 = ["20240107"] ∧
    ¬ (19729 : ℤ) ≤ 19728 ∧
    dayOfWeek 19722 = 0 ∧ (19722 : ℤ) ≤ 19728 ∧ formatCompact 19722 = "20231231" ∧
    getRecentSundays001 1 1704510000000 = ["20231231"] := by
  decide

/-- C2 amended: both anchor computations return `count` dates, the
rendering of a strictly descending day sequence with consecutive gaps of
exactly 7 days, every day a Sunday; the mock-fallback revisions
(`part_001`, `part_002`) start at the most recent Sunday at or before the
current UTC+9 instant, while the snapshot-reuse revision (`part_000`)
starts at the Sunday of the *current* week — today when today is Sunday,
otherwise up to six days in the future. -/
theorem c2_anchor_structure (count : ℕ) (nowMs : ℤ) :
    getRecentSundays000 count nowMs = (anchorDays000 count nowMs).map formatCompact ∧
    getRecentSundays001 count nowMs = (anchorDays001 count nowMs).map formatCompact ∧
    (anchorDays000 count nowMs).length = count ∧
    (anchorDays001 count nowMs).length = count ∧
    ((anchorDays000 count nowMs).Chain' fun a b => b = a - 7) ∧
    ((anchorDays001 count nowMs).Chain' fun a b => b = a - 7) ∧
    (∀ d ∈ anchorDays000 count nowMs, dayOfWeek d = 0) ∧
    (∀ d ∈ anchorDays001 count nowMs, dayOfWeek d = 0) ∧
    (0 < count → ∃ S, (anchorDays001 count nowMs).head? = some S ∧
      S ≤ kstDay nowMs ∧ kstDay nowMs < S + 7) ∧
    (0 < count → ∃ S, (anchorDays000 count nowMs).head? = some S ∧
      kstDay nowMs ≤ S ∧ S < kstDay nowMs + 7) := by
  have he0 : 0 ≤ (kstDay nowMs + 4) % 7 := Int.emod_nonneg _ (by norm_num)
  have he7 : (kstDay nowMs + 4) % 7 < 7 := Int.emod_lt_of_pos _ (by norm_num)
  have hf0 : 0 ≤ (7 - (kstDay nowMs + 4) % 7) % 7 :=
    Int.emod_nonneg _ (by norm_num)
  have hf7 : (7 - (kstDay nowMs + 4) % 7) % 7 < 7 :=
    Int.emod_lt_of_pos _ (by norm_num)
  refine ⟨rfl, rfl, ?_, ?_, ?_, ?_, ?_, ?_, ?_, ?_⟩
  · simp [anchorDays000]
  · simp [anchorDays001]
  · exact chain_sub_seven count _
  · exact chain_sub_seven count _
  · intro d hd
    simp only [anchorDays000, List.mem_map, List.mem_range] at hd
    obtain ⟨i, _, rfl⟩ := hd
    rw [dayOfWeek_sub_weeks]
    exact dayOfWeek_thisSunday (kstDay nowMs)
  · intro d hd
    simp only [anchorDays001, List.mem_map, List.mem_range] at hd
    obtain ⟨i, _, rfl⟩ := hd
    rw [dayOfWeek_sub_weeks]
    exact dayOfWeek_lastSunday (kstDay nowMs)
  · intro hc
    refine ⟨kstDay nowMs - dayOfWeek (kstDay nowMs), ?_, ?_, ?_⟩
    · simpa [anchorDays001] using
        head_map_range count hc fun i : ℕ =>
          kstDay nowMs - dayOfWeek (kstDay nowMs) - 7 * (i : ℤ)
    · simp only [dayOfWeek]; omega
    · simp only [dayOfWeek]; omega
  · intro hc
    refine ⟨kstDay nowMs + (7 - dayOfWeek (kstDay nowMs)) % 7, ?_, ?_, ?_⟩
    · simpa [anchorDays000] using
        head_map_range count hc fun i : ℕ =>
          kstDay nowMs + (7 - dayOfWeek (kstDay nowMs)) % 7 - 7 * (i : ℤ)
    · simp only [dayOfWeek]; omega
    · simp only [dayOfWeek]; omega

/-! ## Infrastructure for the mock-fallback end-to-end claim: every date the
anchor computation renders is accepted by `parseInt`, so the mock seed (and
with it every mock rate) is a genuine number. -/

/-- The characters `natDigitsAux` emits for small values are digits. -/
lemma char_ofNat_digit (n : ℕ) (h : n < 10) : (Char.ofNat (48 + n)).isDigit = true := by
  interval_cases n <;> decide

/-- With enough fuel, a number's digit rendering starts with a digit. -/
lemma natDigitsAux_head (fuel : ℕ) : ∀ n : ℕ, n < 10 ^ (fuel + 1) →
    ∃ c t, natDigitsAux (fuel + 1) n = c :: t ∧ c.isDigit = true := by
  induction fuel with
  | zero =>
    intro n h
    have h10 : n < 10 := by simpa using h
    simp only [natDigitsAux, if_pos h10]
    exact ⟨_, [], rfl, char_ofNat_digit n h10⟩
  | succ f ih =>
    intro n h
    by_cases h10 : n < 10
    · simp only [natDigitsAux, if_pos h10]
      exact ⟨_, [], rfl, char_ofNat_digit n h10⟩
    · obtain ⟨c, t, hct, hc⟩ := ih (n / 10) (by
        have hp : (10 : ℕ) ^ (f + 1 + 1) = 10 * 10 ^ (f + 1) := pow_succ' 10 (f + 1)
        rw [hp] at h
        exact Nat.div_lt_of_lt_mul h)
      refine ⟨c, t ++ [Char.ofNat (48 + n % 10)], ?_, hc⟩
      rw [natDigitsAux, if_neg h10, hct]
      rfl

/-- `String(n)` starts with a digit. -/
lemma natToStr_toList_head (n : ℕ) :
    ∃ c t, (natToStr n).toList = c :: t ∧ c.isDigit = true := by
  have h : n < 10 ^ (n + 1) :=
    lt_of_lt_of_le (Nat.lt_pow_self (by norm_num) n)
      (Nat.pow_le_pow_right (by norm_num) (Nat.le_succ n))
  obtain ⟨c, t, hct, hc⟩ := natDigitsAux_head n n h
  exact ⟨c, t, hct, hc⟩

/-- A digit is not stripped as whitespace. -/
lemma isDigit_ne_white (c : Char) (hc : c.isDigit = true) : jsWhite c = false := by
  simp only [jsWhite, decide_eq_false_iff_not]
  rintro (rfl | rfl | rfl | rfl | rfl | rfl) <;> exact absurd hc (by decide)

/-- A digit is not a sign character. -/
lemma isDigit_ne_sign (c : Char) (hc : c.isDigit = true) : ¬(c = '-' ∨ c = '+') := by
  rintro (rfl | rfl) <;> exact absurd hc (by decide)

/-- `parseInt` succeeds on a string starting with a digit. -/
lemma jsParseInt10_cons_digit (s : String) (c : Char) (t : List Char)
    (hs : s.toList = c :: t) (hc : c.isDigit = true) :
    ∃ v, jsParseInt10 s = some v := by
  have hw : jsWhite c = false := isDigit_ne_white c hc
  have hl : s.toList.dropWhile jsWhite = c :: t := by
    rw [hs, List.dropWhile_cons, hw]
    simp
  simp only [jsParseInt10, hl]
  rw [if_neg (isDigit_ne_sign c hc)]
  rw [List.takeWhile_cons, hc]
  simp

/-- `parseInt` succeeds on a minus sign followed by a digit. -/
lemma jsParseInt10_neg_digit (s : String) (c : Char) (t : List Char)
    (hs : s.toList = '-' :: c :: t) (hc : c.isDigit = true) :
    ∃ v, jsParseInt10 s = some v := by
  have hl : s.toList.dropWhile jsWhite = '-' :: c :: t := by
    rw [hs, List.dropWhile_cons]
    simp [jsWhite]
  simp only [jsParseInt10, hl]
  simp [List.takeWhile_cons, hc]

/-- Appending strings concatenates their character lists. -/
lemma strToList_append (a b : String) : (a ++ b).toList = a.toList ++ b.toList := by
  simp [String.toList, String.data_append]

/-- Every `YYYYMMDD` rendering of a day count parses to an integer. -/
lemma jsParseInt10_formatCompact (z : ℤ) :
    ∃ v, jsParseInt10 (formatCompact z) = some v := by
  have hl : (formatCompact z).toList
      = (intToStr (civilFromDays z).1).toList
        ++ ((pad2 (civilFromDays z).2.1).toList ++ (pad2 (civilFromDays z).2.2).toList) := by
    simp [formatCompact, strToList_append, List.append_assoc]
  by_cases hz : (civilFromDays z).1 < 0
  · have hi : intToStr (civilFromDays z).1 = "-" ++ natToStr (civilFromDays z).1.natAbs := by
      rw [intToStr, if_pos hz]
    obtain ⟨c, t, hct, hc⟩ := natToStr_toList_head (civilFromDays z).1.natAbs
    refine jsParseInt10_neg_digit _ c
      (t ++ ((pad2 (civilFromDays z).2.1).toList ++ (pad2 (civilFromDays z).2.2).toList)) ?_ hc
    rw [hl, hi, strToList_append, hct]
    rfl
  · have hi : intToStr (civilFromDays z).1 = natToStr (civilFromDays z).1.toNat := by
      rw [intToStr, if_neg hz]
    obtain ⟨c, t, hct, hc⟩ := natToStr_toList_head (civilFromDays z).1.toNat
    refine jsParseInt10_cons_digit _ c
      (t ++ ((pad2 (civilFromDays z).2.1).toList ++ (pad2 (civilFromDays z).2.2).toList)) ?_ hc
    rw [hl, hi, hct]
    rfl

/-- A perturbed base rate is finite and positive whenever the perturbation
factor is bounded by one, as `Math.sin` is. -/
lemma jsNumFinite_noise_pos (x base : ℚ) (hx : |x| ≤ 1) (hb0 : 0 < base)
    (hb : base ≤ 1700) :
    (jsNumFinite (base + x * base * (5 / 100))).isFinitePos = true := by
  obtain ⟨hx1, hx2⟩ := abs_le.mp hx
  have h2 : 0 < base + x * base * (5 / 100) := by nlinarith
  have h3 : base + x * base * (5 / 100) ≤ 1785 := by nlinarith
  have hbig : (1785 : ℚ) < 2 ^ 1024 := by
    calc (1785 : ℚ) < 2 ^ 11 := by norm_num
    _ ≤ 2 ^ 1024 := pow_le_pow_right₀ (by norm_num) (by norm_num)
  have hpow : (0 : ℚ) < 2 ^ 1024 := pow_pos (by norm_num) 1024
  rw [jsNumFinite, if_neg (by linarith), if_neg (by linarith)]
  simp [JsNum.isFinitePos, h2]

/-- The fixed mock currency set, in synthesis order. -/
def mockCodes : List String :=
  ["USD", "JPY", "EUR", "CNY", "GBP", "HKD", "CAD", "AUD"]

/-- On a parseable date the synthesis yields exactly the mock currency set
with finite positive rates. -/
lemma generateMock_props (jsSin : ℤ → ℚ) (hsin : ∀ x, |jsSin x| ≤ 1)
    (date : String) (hdate : ∃ v, jsParseInt10 date = some v) (ty : String) :
    ((generateMockData jsSin date ty).map fun r => r.currencyCode) = mockCodes ∧
    ∀ r ∈ generateMockData jsSin date ty, r.rate.isFinitePos = true := by
  obtain ⟨v, hv⟩ := hdate
  refine ⟨rfl, ?_⟩
  intro r hr
  simp only [generateMockData, hv, Option.map_some', List.mem_cons,
    List.not_mem_nil, or_false] at hr
  rcases hr with rfl | rfl | rfl | rfl | rfl | rfl | rfl | rfl <;>
    exact jsNumFinite_noise_pos _ _ (hsin _) (by norm_num) (by norm_num)

/-- C4: with no credential configured, the full mock-fallback run produces
one week per anchor, and each week carries, per direction, exactly the
fixed mock currency set with positive finite rates. -/
theorem c4_mock_dataset_complete (jsSin : ℤ → ℚ) (hsin : ∀ x, |jsSin x| ≤ 1)
    (env : GenEnv) (hkey : env.serviceKey = "") :
    (buildDataset001 jsSin env).weeks.length = env.weekCount ∧
    ∀ w ∈ (buildDataset001 jsSin env).weeks,
      ((w.exportRates.map fun r => r.currencyCode) = mockCodes ∧
        ∀ r ∈ w.exportRates, r.rate.isFinitePos = true) ∧
      ((w.importRates.map fun r => r.currencyCode) = mockCodes ∧
        ∀ r ∈ w.importRates, r.rate.isFinitePos = true) := by
  constructor
  · simp [buildDataset001, getRecentSundays001, anchorDays001]
  · intro w hw
    simp only [buildDataset001, List.mem_map] at hw
    obtain ⟨date, hdate, rfl⟩ := hw
    simp only [getRecentSundays001, List.mem_map] at hdate
    obtain ⟨dday, _, rfl⟩ := hdate
    have hE := generateMock_props jsSin hsin (formatCompact dday)
      (jsParseInt10_formatCompact dday) RateTypeEXPORT
    have hI := generateMock_props jsSin hsin (formatCompact dday)
      (jsParseInt10_formatCompact dday) RateTypeIMPORT
    constructor
    · simpa [fetchWeek001, hkey] using hE
    · simpa [fetchWeek001, hkey] using hI

/-- The credential-free mock-fallback run used as C4's concrete instance. -/
def envC4 : GenEnv :=
  { nowMs := 1704510000000, weekCount := 1, serviceKey := ""
    net := fun _ _ => .fail, prior := none, genAt := "t" }

/-- C4 witness: the hypotheses hold at `Math.sin` modelled by the zero
function and the concrete credential-free environment. -/
theorem c4_mock_dataset_complete_witness :
    (buildDataset001 (fun _ => 0) envC4).weeks.length = envC4.weekCount ∧
    ∀ w ∈ (buildDataset001 (fun _ => 0) envC4).weeks,
      ((w.exportRates.map fun r => r.currencyCode) = mockCodes ∧
        ∀ r ∈ w.exportRates, r.rate.isFinitePos = true) ∧
      ((w.importRates.map fun r => r.currencyCode) = mockCodes ∧
        ∀ r ∈ w.importRates, r.rate.isFinitePos = true) :=
  c4_mock_dataset_complete (fun _ => 0) (fun _ => by norm_num) envC4 rfl

end CustomsFx
